import Mathlib

/-!
Shallow embedding of the persistence layer of the mechain-juno indexer
(`database/database.go`), of the permission module's event handlers
(`modules/permission`), and of the module registry (`modules/module.go`).

Tables are modelled as lists of rows inside one `DBState` record.  The gorm
calls of the source are translated operation by operation:

* `Create` with an `OnConflict ... UpdateAll` clause is an upsert keyed by
  the conflict columns: when a row with the same key exists every other
  column of that row is overwritten, otherwise the row is appended;
* `Updates` with a struct argument follows gorm semantics: only the
  fields holding a non-zero value are written, the rest keep their old value;
* `Update "removed" true` writes the single named column on every matching row;
* raw `DELETE` statements filter the table;
* `Find` into a struct destination scans the first result row and reports
  no error when the result set is empty (only `First`, `Take` and `Last`
  return gorm's record-not-found error);
* `Take` ordered by `height DESC` yields the maximal height, or the
  record-not-found error on an empty table.

Faults of the storage backend are injected as explicit boolean parameters
(`true` means the corresponding statement fails).  A failed statement leaves
the transaction-local state untouched and yields an error value.  Following
the contract of Go's `database/sql`, `Commit` finalises the transaction:
when it succeeds the transaction-local state becomes visible, when it fails
the server discards the transaction; a `Rollback` issued after `Commit` has
returned is a no-op either way, because the transaction is already done.
-/

/-- Errors surfaced by the embedded storage operations. -/
inductive DBErr where
  | notFound
  | opFailed
  | commitFailed
  | unknownAction
  | savePolicyFailed
  | deletePolicyFailed
  deriving DecidableEq, Repr

/-- Block row (`models.Block`): the natural key `height` plus the remaining
columns abstracted into `rest` (the model struct is outside the shown
sources; only the `height` column is read by the embedded queries). -/
structure Block where
  height : Nat
  rest : String
  deriving DecidableEq, Repr

/-- Bucket row (`models.Bucket`): the natural key `bucket_id` plus the
remaining non-key columns abstracted into `rest`. -/
structure Bucket where
  bucketId : Nat
  rest : String
  deriving DecidableEq, Repr

/-- Object row (`models.Object`): the natural key `object_id`, the logical
deletion flag `removed`, and the remaining columns abstracted into `rest`. -/
structure Object where
  objectId : Nat
  removed : Bool
  rest : String
  deriving DecidableEq, Repr, Inhabited

/-- Permission row, with the fields built and read by the permission
handlers in the source. -/
structure Permission where
  principalType : Int
  principalValue : String
  resourceType : String
  resourceID : Nat
  policyID : Nat
  createTimestamp : Int
  updateTimestamp : Int
  expirationTime : Int
  removed : Bool
  deriving DecidableEq, Repr

/-- Statement row (`models.Statements`), with the fields built by
`handlePutPolicy` and the `removed` flag written by `RemoveStatements`. -/
structure Statements where
  policyID : Nat
  effect : String
  actionValue : Nat
  expirationTime : Int
  limitSize : Nat
  resources : List String
  removed : Bool
  deriving DecidableEq, Repr

/-- Commit-signature row of the `pre_commit` table. -/
structure CommitSig where
  validatorAddress : String
  height : Int
  timestamp : Int
  votingPower : Int
  proposerPriority : Int
  deriving DecidableEq, Repr

/-- Transaction row of the `transaction` table: the join columns used by
`Prune` (`hash`, `height`) plus the remaining columns abstracted. -/
structure Txn where
  hash : Nat
  height : Int
  rest : String
  deriving DecidableEq, Repr

/-- Message row of the `message` table: the join column `transaction_hash`
plus the remaining columns abstracted. -/
structure Message where
  transactionHash : Nat
  rest : String
  deriving DecidableEq, Repr

/-- Modelled from the spec: `models.Epoch` is not among the shown sources.
The spec describes a single-row table with a fixed synthetic key
(`one_row_id`) tracking the last-processed block height, block hash and
update time; `rest` abstracts any further column of the row. -/
structure EpochRow where
  oneRowId : Bool
  blockHeight : Int
  blockHash : Nat
  updateTime : Int
  rest : String
  deriving DecidableEq, Repr

/-- Embeds `models.DataStat` row, fields as declared in the source. -/
structure DataStat where
  oneRowId : Bool
  blockHeight : Int
  objectTotalCount : String
  objectSealCount : String
  objectDelCount : String
  updateTime : Int
  deriving DecidableEq, Repr

/-- The relational state: one list of rows per table touched by the
embedded operations.  The `epoch` table is single-row by construction
(fixed synthetic primary key), hence an `Option`.  The `pruning` table
holds bare heights (its single column `last_pruned_height`). -/
structure DBState where
  blocks : List Block
  buckets : List Bucket
  objects : List Object
  permissions : List Permission
  statements : List Statements
  preCommit : List CommitSig
  transactions : List Txn
  messages : List Message
  pruning : List Int
  epoch : Option EpochRow
  deriving DecidableEq, Repr

/-- The empty database. -/
def dbEmpty : DBState :=
  { blocks := [], buckets := [], objects := [], permissions := []
  , statements := [], preCommit := [], transactions := [], messages := []
  , pruning := [], epoch := none }

/-- Embeds `errIsNotFound` from the source: recognises the record-not-found error. -/
def errIsNotFound : DBErr → Bool
  | DBErr.notFound => true
  | _ => false

/-- Embeds `Impl.SaveDBStatistics`: the source body is a bare `return nil`. -/
def saveDBStatistics (st : DBState) (_ds : DataStat) : DBState × Option DBErr :=
  (st, none)

/-- Embeds `Impl.StoreLastPruned`, first statement: `DELETE FROM pruning`. -/
def deleteAllPruning (st : DBState) : DBState :=
  { st with pruning := [] }

/-- Embeds `Impl.StoreLastPruned`, second statement:
`INSERT INTO pruning (last_pruned_height) VALUES ($1)`. -/
def insertPruning (st : DBState) (height : Int) : DBState :=
  { st with pruning := st.pruning ++ [height] }

/-- Embeds `Impl.StoreLastPruned`: delete every watermark row, then insert the new
height.  Fault parameters inject a failure of either statement. -/
def storeLastPruned (st : DBState) (height : Int) (fDel fIns : Bool) :
    DBState × Option DBErr :=
  if fDel then (st, some DBErr.opFailed)
  else
    let st1 := deleteAllPruning st
    if fIns then (st1, some DBErr.opFailed)
    else (insertPruning st1 height, none)

/-- The `SELECT height ... ORDER BY height DESC` + `Take` query of
`Impl.GetLastBlockHeight`: the maximal stored height, or the
record-not-found error when the table is empty. -/
def lastHeightQuery (st : DBState) : Except DBErr Nat :=
  match (st.blocks.map Block.height).max? with
  | none => Except.error DBErr.notFound
  | some h => Except.ok h

/-- Embeds `Impl.GetLastBlockHeight`: runs the query and absorbs the
record-not-found error into the result `(0, nil)`. -/
def getLastBlockHeight (st : DBState) : Nat × Option DBErr :=
  match lastHeightQuery st with
  | Except.error e => if errIsNotFound e then (0, none) else (0, some e)
  | Except.ok h => (h, none)

/-- Embeds `Impl.SaveBucket`: `Create` with `OnConflict` on `bucket_id` and
`UpdateAll` — when a row with the same `bucket_id` exists, all its non-key
columns are overwritten with the new value, otherwise the row is inserted. -/
def saveBucket (st : DBState) (b : Bucket) : DBState :=
  if st.buckets.any (fun r => r.bucketId == b.bucketId) then
    { st with buckets := st.buckets.map (fun r => if r.bucketId == b.bucketId then b else r) }
  else
    { st with buckets := st.buckets ++ [b] }

/-- Embeds `Impl.GetObject`: a gorm `Find` into a struct destination with the
condition `object_id = ? AND removed IS NOT TRUE`.  `Find` reports no error
on an empty result set and leaves the destination zero-valued; otherwise it
scans the first matching row. -/
def getObject (st : DBState) (objectId : Nat) : Object × Option DBErr :=
  match st.objects.filter (fun o => o.objectId == objectId && !o.removed) with
  | [] => (default, none)
  | o :: _ => (o, none)

/-- Embeds `Impl.SaveEpoch`: `Create` with `OnConflict` on the fixed synthetic key
`one_row_id` and `DoUpdates` of exactly the columns `block_height`,
`block_hash`, `update_time`; every other column of an existing row is left
untouched. -/
def saveEpoch (st : DBState) (e : EpochRow) : DBState :=
  match st.epoch with
  | some r =>
    let r1 : EpochRow :=
      { r with blockHeight := e.blockHeight, blockHash := e.blockHash, updateTime := e.updateTime }
    { st with epoch := some r1 }
  | none => { st with epoch := some e }

/-- Embeds `Impl.Prune`, first statement: `DELETE FROM pre_commit WHERE height = $1`. -/
def deletePreCommitAt (st : DBState) (height : Int) : DBState :=
  { st with preCommit := st.preCommit.filter (fun s => !(s.height == height)) }

/-- Embeds `Impl.Prune`, second statement: `DELETE FROM message USING transaction
WHERE message.transaction_hash = transaction.hash AND transaction.height = $1`. -/
def deleteMessagesAt (st : DBState) (height : Int) : DBState :=
  { st with messages := st.messages.filter (fun m => !(st.transactions.any (fun t => t.hash == m.transactionHash && t.height == height))) }

/-- Embeds `Impl.Prune`: delete commit signatures at the height, then delete the
messages whose parent transaction has that height; the second delete runs
only when the first succeeded. -/
def prune (st : DBState) (height : Int) (f1 f2 : Bool) : DBState × Option DBErr :=
  if f1 then (st, some DBErr.opFailed)
  else
    let st1 := deletePreCommitAt st height
    if f2 then (st1, some DBErr.opFailed)
    else (deleteMessagesAt st1 height, none)

/-- The policy action types enumerated in `actionTypeMap` of the permission
module, plus `other` standing for any action value outside the map. -/
inductive ActionType where
  | typeAll
  | updateBucketInfo
  | deleteBucket
  | createObject
  | deleteObject
  | copyObject
  | getObject
  | executeObject
  | listObject
  | updateGroupMember
  | deleteGroup
  | updateObjectInfo
  | other
  deriving DecidableEq, Repr

/-- Embeds `actionTypeMap` of the permission module: the bit index assigned to each
known action type; an unknown action has no entry. -/
def actionTypeMap : ActionType → Option Nat
  | ActionType.typeAll => some 0
  | ActionType.updateBucketInfo => some 1
  | ActionType.deleteBucket => some 2
  | ActionType.createObject => some 3
  | ActionType.deleteObject => some 4
  | ActionType.copyObject => some 5
  | ActionType.getObject => some 6
  | ActionType.executeObject => some 7
  | ActionType.listObject => some 8
  | ActionType.updateGroupMember => some 9
  | ActionType.deleteGroup => some 10
  | ActionType.updateObjectInfo => some 11
  | ActionType.other => none

/-- A statement of a put-policy event, with the fields the handler reads
(`Effect`, `Actions`, optional `ExpirationTime`, optional `LimitSize`,
`Resources`). -/
structure EvStatement where
  effect : String
  actions : List ActionType
  expirationTime : Option Int
  limitSize : Option Nat
  resources : List String
  deriving DecidableEq, Repr

/-- A put-policy event, with the fields the handler reads. -/
structure EventPutPolicy where
  principalType : Int
  principalValue : String
  resourceType : String
  resourceId : Nat
  policyId : Nat
  expirationTime : Option Int
  statements : List EvStatement
  deriving DecidableEq, Repr

/-- A delete-policy event: the handler reads only `PolicyId`. -/
structure EventDeletePolicy where
  policyId : Nat
  deriving DecidableEq, Repr

/-- The permission row built by `handlePutPolicy`: expiration defaults to 0
when the event carries none; the fields the handler does not set hold their
zero values. -/
def buildPermission (blockTime : Int) (ev : EventPutPolicy) : Permission :=
  { principalType := ev.principalType
  , principalValue := ev.principalValue
  , resourceType := ev.resourceType
  , resourceID := ev.resourceId
  , policyID := ev.policyId
  , createTimestamp := blockTime
  , updateTimestamp := 0
  , expirationTime := ev.expirationTime.getD 0
  , removed := false }

/-- The action-bitmask loop of `handlePutPolicy`: starting from the
accumulator, OR in the bit of every action; an unknown action aborts the
whole handler with an error. -/
def actionValueLoop (acc : Nat) : List ActionType → Option Nat
  | [] => some acc
  | a :: rest =>
    match actionTypeMap a with
    | none => none
    | some v => actionValueLoop (acc ||| (1 <<< v)) rest

/-- One statement row built by `handlePutPolicy` from a statement of the
event: optional expiration and limit default to their zero values. -/
def buildStatement (policyId : Nat) (s : EvStatement) : Option Statements :=
  (actionValueLoop 0 s.actions).map (fun av =>
    { policyID := policyId
    , effect := s.effect
    , actionValue := av
    , expirationTime := s.expirationTime.getD 0
    , limitSize := s.limitSize.getD 0
    , resources := s.resources
    , removed := false })

/-- The statement-building loop of `handlePutPolicy`: the first unknown
action aborts with an error, otherwise the rows are collected in order. -/
def buildStatements (policyId : Nat) : List EvStatement → Option (List Statements)
  | [] => some []
  | s :: rest =>
    match buildStatement policyId s with
    | none => none
    | some r => (buildStatements policyId rest).map (fun tl => r :: tl)

/-- The conflict target of `Impl.SavePermission`: the compound natural key
(`principal_type`, `principal_value`, `resource_type`, `resource_id`). -/
def permKeyMatches (a b : Permission) : Bool :=
  a.principalType == b.principalType && a.principalValue == b.principalValue
    && a.resourceType == b.resourceType && a.resourceID == b.resourceID

/-- Embeds `Impl.SavePermission`: `Create` with `OnConflict` on the compound
principal/resource key and `UpdateAll`. -/
def savePermission (st : DBState) (p : Permission) : DBState :=
  if st.permissions.any (fun r => permKeyMatches p r) then
    { st with permissions := st.permissions.map (fun r => if permKeyMatches p r then p else r) }
  else
    { st with permissions := st.permissions ++ [p] }

/-- Embeds `Impl.MultiSaveStatement`: a plain `Create` of the batch, no conflict
clause. -/
def multiSaveStatement (st : DBState) (rows : List Statements) : DBState :=
  { st with statements := st.statements ++ rows }

/-- The per-row effect of gorm `Updates` with a `Permission` struct
argument: only fields holding a non-zero value are written, every other
column keeps its old value. -/
def updatePermissionRow (p r : Permission) : Permission :=
  { principalType := if p.principalType = 0 then r.principalType else p.principalType
  , principalValue := if p.principalValue = "" then r.principalValue else p.principalValue
  , resourceType := if p.resourceType = "" then r.resourceType else p.resourceType
  , resourceID := if p.resourceID = 0 then r.resourceID else p.resourceID
  , policyID := if p.policyID = 0 then r.policyID else p.policyID
  , createTimestamp := if p.createTimestamp = 0 then r.createTimestamp else p.createTimestamp
  , updateTimestamp := if p.updateTimestamp = 0 then r.updateTimestamp else p.updateTimestamp
  , expirationTime := if p.expirationTime = 0 then r.expirationTime else p.expirationTime
  , removed := if p.removed then true else r.removed }

/-- Embeds `Impl.UpdatePermission`: `Updates` with a struct argument on the rows
matching `policy_id = ?`. -/
def updatePermission (st : DBState) (p : Permission) : DBState :=
  { st with permissions := st.permissions.map (fun r => if r.policyID == p.policyID then updatePermissionRow p r else r) }

/-- Embeds `Impl.RemoveStatements`: `Update "removed" true` on the rows matching
`policy_id = ?`. -/
def removeStatements (st : DBState) (policyID : Nat) : DBState :=
  { st with statements := st.statements.map (fun s => if s.policyID == policyID then { s with removed := true } else s) }

/-- The permission argument `handleDeletePolicy` passes to
`UpdatePermission`: only `PolicyID`, `Removed` and `UpdateTimestamp` set. -/
def deletePolicyArg (blockTime : Int) (policyId : Nat) : Permission :=
  { principalType := 0, principalValue := "", resourceType := "", resourceID := 0
  , policyID := policyId, createTimestamp := 0, updateTimestamp := blockTime
  , expirationTime := 0, removed := true }

/-- Embeds `handlePutPolicy` of the permission module.  It builds the permission
row and the statement rows (an unknown action aborts before any storage
call), then opens a transaction, calls `SavePermission` and
`MultiSaveStatement` accumulating their errors, calls `Commit`
unconditionally, and only afterwards checks the three errors, issuing a
`Rollback` and returning an error when any of them is set.  The fault
parameters make the corresponding storage call fail; a failed call leaves
the transaction-local state untouched. -/
def handlePutPolicy (st : DBState) (blockTime : Int) (ev : EventPutPolicy)
    (fPerm fStmt fCommit : Bool) : DBState × Option DBErr :=
  let p := buildPermission blockTime ev
  match buildStatements ev.policyId ev.statements with
  | none => (st, some DBErr.unknownAction)
  | some stmts =>
    let cur0 := st
    let r1 := if fPerm then (cur0, some DBErr.opFailed)
              else (savePermission cur0 p, (none : Option DBErr))
    let r2 := if fStmt then (r1.1, some DBErr.opFailed)
              else (multiSaveStatement r1.1 stmts, (none : Option DBErr))
    let r3 := if fCommit then (st, some DBErr.commitFailed)
              else (r2.1, (none : Option DBErr))
    if r1.2.isSome || r2.2.isSome || r3.2.isSome then
      (r3.1, some DBErr.savePolicyFailed)
    else (r3.1, none)

/-- Embeds `handleDeletePolicy` of the permission module: inside one transaction,
`UpdatePermission` marks the permission row of the policy id removed and
`RemoveStatements` marks its statement rows removed; `Commit` is called
unconditionally and the three errors are checked afterwards, issuing a
`Rollback` and returning an error when any is set. -/
def handleDeletePolicy (st : DBState) (blockTime : Int) (ev : EventDeletePolicy)
    (fUpd fRem fCommit : Bool) : DBState × Option DBErr :=
  let pid := ev.policyId
  let r1 := if fUpd then (st, some DBErr.opFailed)
            else (updatePermission st (deletePolicyArg blockTime pid), (none : Option DBErr))
  let r2 := if fRem then (r1.1, some DBErr.opFailed)
            else (removeStatements r1.1 pid, (none : Option DBErr))
  let r3 := if fCommit then (st, some DBErr.commitFailed)
            else (r2.1, (none : Option DBErr))
  if r1.2.isSome || r2.2.isSome || r3.2.isSome then
    (r3.1, some DBErr.deletePolicyFailed)
  else (r3.1, none)

/-- A registered module (`modules.Module` of the source, renamed here to
avoid the mathlib name), identified by the string its `Name()` method
returns. -/
structure IndexerModule where
  name : String
  deriving DecidableEq, Repr

/-- The case folding of Go's `strings.EqualFold`, modelled as comparison of
lower-cased strings. -/
def eqFold (a b : String) : Bool :=
  a.data.map Char.toLower == b.data.map Char.toLower

/-- Embeds `Modules.FindByName`: scan the registered modules in order and return
the first whose name matches case-insensitively, with `found = true`;
return `(nil, false)` when none matches. -/
def FindByName (ms : List IndexerModule) (name : String) : Option IndexerModule × Bool :=
  match ms.find? (fun m => eqFold m.name name) with
  | some m => (some m, true)
  | none => (none, false)


/-- Net per-row effect of the delete-policy path on a matching permission
row: the removed flag is set and the update timestamp overwritten (kept
when the block time is the zero value, per the gorm non-zero-field rule);
every other column is untouched. -/
def markPermissionRemoved (t : Int) (p : Permission) : Permission :=
  { p with removed := true, updateTimestamp := if t = 0 then p.updateTimestamp else t }

/-- Fixture: a stored bucket row. -/
def bucketOld : Bucket := { bucketId := 1, rest := "old" }

/-- Fixture: a second value for the same bucket natural key. -/
def bucketNew : Bucket := { bucketId := 1, rest := "new" }

/-- Fixture: a database holding one bucket row. -/
def dbWithBucket : DBState := { dbEmpty with buckets := [bucketOld] }

/-- Fixture: a live object row. -/
def objectLive : Object := { objectId := 5, removed := false, rest := "live" }

/-- Fixture: a logically-removed object row with the same natural key. -/
def objectGone : Object := { objectId := 5, removed := true, rest := "gone" }

/-- Fixture: a database holding a removed and a live object with the same
natural key. -/
def dbWithObjects : DBState := { dbEmpty with objects := [objectGone, objectLive] }

/-- Fixture: a put-policy event carrying one statement. -/
def putPolicyEv : EventPutPolicy :=
  { principalType := 1
  , principalValue := "0xabc"
  , resourceType := "RESOURCE_TYPE_BUCKET"
  , resourceId := 7
  , policyId := 42
  , expirationTime := none
  , statements :=
      [ { effect := "EFFECT_ALLOW"
        , actions := [ActionType.getObject, ActionType.listObject]
        , expirationTime := none
        , limitSize := none
        , resources := [] } ] }

/-- Fixture: two registered modules. -/
def modsFixture : List IndexerModule := [{ name := "Auth" }, { name := "payment" }]

/-- Fixture: a commit signature at height 3. -/
def sigAt3 : CommitSig :=
  { validatorAddress := "v1", height := 3, timestamp := 1, votingPower := 10, proposerPriority := 0 }

/-- Fixture: a transaction row at height 3. -/
def txnAt3 : Txn := { hash := 9, height := 3, rest := "" }

/-- Fixture: a message row belonging to the transaction at height 3. -/
def msgOfTxn : Message := { transactionHash := 9, rest := "m" }

/-- Fixture: a database with prunable rows at height 3. -/
def dbForPrune : DBState :=
  { dbEmpty with preCommit := [sigAt3], transactions := [txnAt3], messages := [msgOfTxn] }

/-- Fixture: the stored epoch row. -/
def epochRow0 : EpochRow :=
  { oneRowId := true, blockHeight := 10, blockHash := 111, updateTime := 5, rest := "keep" }

/-- Fixture: the epoch value written by a later save. -/
def epochRow1 : EpochRow :=
  { oneRowId := true, blockHeight := 20, blockHash := 222, updateTime := 9, rest := "ignored" }

/-- Fixture: a database holding the epoch row. -/
def dbWithEpoch : DBState := { dbEmpty with epoch := some epochRow0 }

/-- Fixture: a permission row of policy 42 together with a statement row of
policy 42 and a statement row of an unrelated policy. -/
def permRow42 : Permission :=
  { principalType := 1, principalValue := "0xabc", resourceType := "RESOURCE_TYPE_BUCKET"
  , resourceID := 7, policyID := 42, createTimestamp := 100, updateTimestamp := 0
  , expirationTime := 0, removed := false }

/-- Fixture: a statement row of policy 42. -/
def stmtRow42 : Statements :=
  { policyID := 42, effect := "EFFECT_ALLOW", actionValue := 320, expirationTime := 0
  , limitSize := 0, resources := [], removed := false }

/-- Fixture: a statement row of an unrelated policy. -/
def stmtRow7 : Statements :=
  { policyID := 7, effect := "EFFECT_DENY", actionValue := 1, expirationTime := 0
  , limitSize := 0, resources := [], removed := false }

/-- Fixture: a database holding the policy-42 rows and the unrelated
statement row. -/
def dbWithPolicy : DBState :=
  { dbEmpty with permissions := [permRow42], statements := [stmtRow42, stmtRow7] }

/-- C10: for every input DataStat value and every state, SaveDBStatistics
returns nil and performs no store operation: the database is unchanged. -/
theorem c10_saveDBStatistics_noop (st : DBState) (ds : DataStat) :
    saveDBStatistics st ds = (st, none) := rfl

/-- C6: for every state and height, the success path of StoreLastPruned
deletes the existing watermark rows and inserts the new one, leaving the
watermark table holding exactly the passed height, no error, and every
other table untouched. -/
theorem c6_storeLastPruned_replace (st : DBState) (height : Int) :
    (storeLastPruned st height false false).1.pruning = [height]
    ∧ (storeLastPruned st height false false).2 = none
    ∧ (storeLastPruned st height false false).1.blocks = st.blocks
    ∧ (storeLastPruned st height false false).1.buckets = st.buckets
    ∧ (storeLastPruned st height false false).1.objects = st.objects
    ∧ (storeLastPruned st height false false).1.permissions = st.permissions
    ∧ (storeLastPruned st height false false).1.statements = st.statements
    ∧ (storeLastPruned st height false false).1.preCommit = st.preCommit
    ∧ (storeLastPruned st height false false).1.transactions = st.transactions
    ∧ (storeLastPruned st height false false).1.messages = st.messages
    ∧ (storeLastPruned st height false false).1.epoch = st.epoch := by
  simp [storeLastPruned, deleteAllPruning, insertPruning]

/-- C7: when the blocks table is empty, the underlying query reports the
record-not-found condition, and GetLastBlockHeight absorbs it, returning
height 0 with a nil error. -/
theorem c7_getLastBlockHeight_empty (st : DBState) (h : st.blocks = []) :
    lastHeightQuery st = Except.error DBErr.notFound
    ∧ getLastBlockHeight st = (0, none) := by
  constructor
  · simp [lastHeightQuery, h]
  · simp [getLastBlockHeight, lastHeightQuery, h, errIsNotFound]

/-- C7 witness: the empty database. -/
theorem c7_getLastBlockHeight_empty_witness :
    lastHeightQuery dbEmpty = Except.error DBErr.notFound
    ∧ getLastBlockHeight dbEmpty = (0, none) :=
  c7_getLastBlockHeight_empty dbEmpty rfl

/-- C1: evaluation of the put-policy handler at the failing input where the
permission save fails while the batch statement save and the commit
succeed.  The handler returns an error, but the commit — issued before the
accumulated errors are checked, with the subsequent rollback a no-op on the
finalised transaction — has already published the statement row: one
statement row for the policy id is visible and no permission row is, a
partial commit where the claim demands zero visible rows. -/
theorem c1_putPolicy_partial_commit :
    (handlePutPolicy dbEmpty 1000 putPolicyEv true false false).2 = some DBErr.savePolicyFailed
    ∧ ((handlePutPolicy dbEmpty 1000 putPolicyEv true false false).1.statements.filter
        (fun s => s.policyID == 42)).length = 1
    ∧ ((handlePutPolicy dbEmpty 1000 putPolicyEv true false false).1.permissions.filter
        (fun p => p.policyID == 42)).length = 0 := by decide

/-- C2 counterexample: on the empty store no row with the key exists, yet
GetObject reports no error at all — in particular not the NotFound error
the claim requires — and yields the zero-valued object. -/
theorem c2_getObject_counterexample :
    dbEmpty.objects = []
    ∧ (getObject dbEmpty 5).2 ≠ some DBErr.notFound
    ∧ getObject dbEmpty 5 = (default, none) := by decide


theorem saveBucket_map_idem (b : Bucket) (l : List Bucket) :
    (l.map (fun r => if r.bucketId == b.bucketId then b else r)).map
      (fun r => if r.bucketId == b.bucketId then b else r)
    = l.map (fun r => if r.bucketId == b.bucketId then b else r) := by
  rw [List.map_map]
  apply List.map_congr_left
  intro a _
  by_cases h : (a.bucketId == b.bucketId) = true
  · simp [Function.comp, h]
  · simp [Function.comp, h]

theorem saveBucket_eq_pos (st : DBState) (b : Bucket)
    (h : st.buckets.any (fun r => r.bucketId == b.bucketId) = true) :
    saveBucket st b
    = { st with buckets := st.buckets.map (fun r => if r.bucketId == b.bucketId then b else r) } := by
  unfold saveBucket
  rw [h]
  simp

theorem saveBucket_eq_neg (st : DBState) (b : Bucket)
    (h : st.buckets.any (fun r => r.bucketId == b.bucketId) = false) :
    saveBucket st b = { st with buckets := st.buckets ++ [b] } := by
  unfold saveBucket
  rw [h]
  simp

theorem c5_saveBucket_idempotent_upsert (st : DBState) (b : Bucket) :
    saveBucket (saveBucket st b) b = saveBucket st b
    ∧ ((∃ r ∈ st.buckets, r.bucketId = b.bucketId) →
        (saveBucket st b).buckets.length = st.buckets.length
        ∧ b ∈ (saveBucket st b).buckets
        ∧ (∀ r ∈ (saveBucket st b).buckets, r.bucketId = b.bucketId → r = b)
        ∧ (∀ r ∈ (saveBucket st b).buckets, r.bucketId ≠ b.bucketId → r ∈ st.buckets)) := by
  constructor
  · by_cases hany : st.buckets.any (fun r => r.bucketId == b.bucketId) = true
    · rw [saveBucket_eq_pos st b hany]
      obtain ⟨r, hr, hkey⟩ := List.any_eq_true.mp hany
      have hb : b ∈ st.buckets.map (fun r => if r.bucketId == b.bucketId then b else r) :=
        List.mem_map.mpr ⟨r, hr, by rw [if_pos hkey]⟩
      have hany2 : ({ st with buckets := st.buckets.map (fun r => if r.bucketId == b.bucketId then b else r) } : DBState).buckets.any
          (fun r => r.bucketId == b.bucketId) = true :=
        List.any_eq_true.mpr ⟨b, hb, by simp⟩
      rw [saveBucket_eq_pos _ b hany2]
      congr 1
      exact saveBucket_map_idem b st.buckets
    · have hany' : st.buckets.any (fun r => r.bucketId == b.bucketId) = false := by
        simpa using hany
      rw [saveBucket_eq_neg st b hany']
      have hall : ∀ r ∈ st.buckets, (r.bucketId == b.bucketId) = false := by
        simpa using List.any_eq_false.mp hany'
      have hany2 : ({ st with buckets := st.buckets ++ [b] } : DBState).buckets.any
          (fun r => r.bucketId == b.bucketId) = true := by
        simp
      rw [saveBucket_eq_pos _ b hany2]
      congr 1
      show (st.buckets ++ [b]).map (fun r => if r.bucketId == b.bucketId then b else r)
        = st.buckets ++ [b]
      rw [List.map_append]
      have h1 : st.buckets.map (fun r => if r.bucketId == b.bucketId then b else r)
          = st.buckets := by
        calc st.buckets.map (fun r => if r.bucketId == b.bucketId then b else r)
            = st.buckets.map id := List.map_congr_left (fun a ha => by rw [if_neg (by simp [hall a ha])]; rfl)
          _ = st.buckets := List.map_id st.buckets
      rw [h1]
      simp
  · rintro ⟨r, hr, hkey⟩
    have hkeyb : (r.bucketId == b.bucketId) = true := by simpa using hkey
    have hany : st.buckets.any (fun x => x.bucketId == b.bucketId) = true :=
      List.any_eq_true.mpr ⟨r, hr, hkeyb⟩
    rw [saveBucket_eq_pos st b hany]
    refine ⟨by simp, ?_, ?_, ?_⟩
    · exact List.mem_map.mpr ⟨r, hr, by rw [if_pos hkeyb]⟩
    · intro x hx hxk
      obtain ⟨a, _, rfl⟩ := List.mem_map.mp hx
      by_cases hk : (a.bucketId == b.bucketId) = true
      · rw [if_pos hk]
      · exfalso
        rw [if_neg (by simpa using hk)] at hxk
        exact hk (by simpa using hxk)
    · intro x hx hxk
      obtain ⟨a, ha, rfl⟩ := List.mem_map.mp hx
      by_cases hk : (a.bucketId == b.bucketId) = true
      · exfalso
        exact hxk (by rw [if_pos hk])
      · rw [if_neg (by simpa using hk)]
        rw [if_neg (by simpa using hk)] at hxk
        exact ha

/-- C5 witness: a store holding one bucket row, overwritten by a second
value with the same natural key. -/
theorem c5_saveBucket_witness :
    saveBucket (saveBucket dbWithBucket bucketNew) bucketNew = saveBucket dbWithBucket bucketNew
    ∧ ((saveBucket dbWithBucket bucketNew).buckets.length = dbWithBucket.buckets.length
       ∧ bucketNew ∈ (saveBucket dbWithBucket bucketNew).buckets
       ∧ (∀ r ∈ (saveBucket dbWithBucket bucketNew).buckets, r.bucketId = bucketNew.bucketId → r = bucketNew)
       ∧ (∀ r ∈ (saveBucket dbWithBucket bucketNew).buckets, r.bucketId ≠ bucketNew.bucketId → r ∈ dbWithBucket.buckets)) := by
  have h := c5_saveBucket_idempotent_upsert dbWithBucket bucketNew
  exact ⟨h.1, h.2 ⟨bucketOld, by decide, by decide⟩⟩

/-- Helper: the first match returned by a find over a list decomposes the
list into a non-matching prefix, the match, and a suffix. -/
theorem find_first_decomp {α : Type} (p : α → Bool) (l : List α)
    (hx : ∃ a ∈ l, p a = true) :
    ∃ l1 a l2, l = l1 ++ a :: l2 ∧ p a = true ∧ (∀ x ∈ l1, p x = false)
      ∧ l.find? p = some a := by
  induction l with
  | nil => simp at hx
  | cons hd tl ih =>
    by_cases hp : p hd = true
    · exact ⟨[], hd, tl, by simp, hp, by simp, by rw [List.find?_cons_of_pos _ hp]⟩
    · have hfalse : p hd = false := by simpa using hp
      have hx' : ∃ a ∈ tl, p a = true := by
        obtain ⟨a, ha, hpa⟩ := hx
        rcases List.mem_cons.mp ha with h | h
        · exact absurd (h ▸ hpa) (by simp [hfalse])
        · exact ⟨a, h, hpa⟩
      obtain ⟨l1, a, l2, h1, h2, h3, h4⟩ := ih hx'
      refine ⟨hd :: l1, a, l2, by simp [h1], h2, ?_, ?_⟩
      · intro x hxm
        rcases List.mem_cons.mp hxm with h | h
        · exact h ▸ hfalse
        · exact h3 x h
      · rw [List.find?_cons_of_neg _ (by simp [hfalse]), h4]

/-- C8: FindByName returns the first registered module whose name matches
case-insensitively, together with found being true; when no registered
module matches, it returns none and found being false. -/
theorem c8_FindByName_first_match (ms : List IndexerModule) (name : String) :
    ((∃ m ∈ ms, eqFold m.name name = true) →
      ∃ l1 m l2, ms = l1 ++ m :: l2 ∧ eqFold m.name name = true
        ∧ (∀ x ∈ l1, eqFold x.name name = false)
        ∧ FindByName ms name = (some m, true))
    ∧ ((∀ m ∈ ms, eqFold m.name name = false) → FindByName ms name = (none, false)) := by
  constructor
  · intro hx
    obtain ⟨l1, m, l2, h1, h2, h3, h4⟩ :=
      find_first_decomp (fun m => eqFold m.name name) ms hx
    exact ⟨l1, m, l2, h1, h2, h3, by rw [FindByName, h4]⟩
  · intro hall
    have hnone : ms.find? (fun m => eqFold m.name name) = none :=
      List.find?_eq_none.mpr (fun x hx => by simp [hall x hx])
    rw [FindByName, hnone]

/-- C8 witness: two registered modules; the name matches the second one
under case folding. -/
theorem c8_FindByName_witness :
    (∃ l1 m l2, modsFixture = l1 ++ m :: l2 ∧ eqFold m.name "PAYMENT" = true
      ∧ (∀ x ∈ l1, eqFold x.name "PAYMENT" = false)
      ∧ FindByName modsFixture "PAYMENT" = (some m, true))
    ∧ FindByName [] "PAYMENT" = (none, false) := by
  have h1 := c8_FindByName_first_match modsFixture "PAYMENT"
  have h2 := c8_FindByName_first_match [] "PAYMENT"
  refine ⟨h1.1 ⟨{ name := "payment" }, by decide, by decide⟩, h2.2 (by simp)⟩

/-- C2 amended: GetObject filters logically-removed rows out — the returned
row always has removed false, and when a non-removed row with the key
exists a stored row with that key is returned — but it does not fail with
NotFound on a missing row: it returns the zero-valued object and a nil
error instead. -/
theorem c2_getObject_amended (st : DBState) (objectId : Nat) :
    (getObject st objectId).2 = none
    ∧ (getObject st objectId).1.removed = false
    ∧ ((∃ o ∈ st.objects, o.objectId = objectId ∧ o.removed = false) →
        (getObject st objectId).1 ∈ st.objects ∧ (getObject st objectId).1.objectId = objectId)
    ∧ ((∀ o ∈ st.objects, o.objectId = objectId → o.removed = true) →
        (getObject st objectId).1 = default) := by
  unfold getObject
  cases hfil : st.objects.filter (fun o => o.objectId == objectId && !o.removed) with
  | nil =>
    refine ⟨rfl, rfl, ?_, fun _ => rfl⟩
    rintro ⟨o, ho, hid, hrem⟩
    have hm : o ∈ st.objects.filter (fun o => o.objectId == objectId && !o.removed) :=
      List.mem_filter.mpr ⟨ho, by simp [hid, hrem]⟩
    rw [hfil] at hm
    exact absurd hm (List.not_mem_nil o)
  | cons o rest =>
    have hmem : o ∈ st.objects.filter (fun o => o.objectId == objectId && !o.removed) := by
      rw [hfil]; exact List.mem_cons_self o rest
    have h2 := List.mem_filter.mp hmem
    have hf := h2.2
    simp only [Bool.and_eq_true, beq_iff_eq, Bool.not_eq_true'] at hf
    refine ⟨rfl, hf.2, fun _ => ⟨h2.1, hf.1⟩, ?_⟩
    intro hall
    exact absurd (hall o h2.1 hf.1) (by simp [hf.2])

/-- C2 witness for the amended theorem: a store holding a removed and a
live row with the same key; the live one is returned. -/
theorem c2_getObject_witness :
    (getObject dbWithObjects 5).2 = none
    ∧ (getObject dbWithObjects 5).1.removed = false
    ∧ ((getObject dbWithObjects 5).1 ∈ dbWithObjects.objects
        ∧ (getObject dbWithObjects 5).1.objectId = 5) := by
  have h := c2_getObject_amended dbWithObjects 5
  exact ⟨h.1, h.2.1, h.2.2.1 ⟨objectLive, by decide, by decide, by decide⟩⟩

/-- C4: the fault-free Prune reports no error (also when nothing is stored
at the height), removes exactly the commit signatures at the height and
exactly the messages whose parent transaction is at the height, leaves
transaction rows in place, reaches the fully-pruned state whenever it
reports no error, and is a complete no-op when no rows exist at the
height. -/
theorem c4_prune_spec (st : DBState) (height : Int) :
    (prune st height false false).2 = none
    ∧ (∀ s ∈ (prune st height false false).1.preCommit, ¬ s.height = height)
    ∧ (∀ s ∈ st.preCommit, ¬ s.height = height → s ∈ (prune st height false false).1.preCommit)
    ∧ (prune st height false false).1.transactions = st.transactions
    ∧ (∀ m ∈ (prune st height false false).1.messages,
        ∀ t ∈ st.transactions, t.hash = m.transactionHash → ¬ t.height = height)
    ∧ (∀ m ∈ st.messages,
        (∀ t ∈ st.transactions, t.hash = m.transactionHash → ¬ t.height = height) →
        m ∈ (prune st height false false).1.messages)
    ∧ (∀ f1 f2, (prune st height f1 f2).2 = none →
        (prune st height f1 f2).1 = deleteMessagesAt (deletePreCommitAt st height) height)
    ∧ ((∀ s ∈ st.preCommit, ¬ s.height = height) →
        (∀ t ∈ st.transactions, ¬ t.height = height) →
        prune st height false false = (st, none)) := by
  have hred : prune st height false false
      = (deleteMessagesAt (deletePreCommitAt st height) height, none) := rfl
  refine ⟨rfl, ?_, ?_, rfl, ?_, ?_, ?_, ?_⟩
  · intro s hs
    rw [hred] at hs
    have : s ∈ st.preCommit.filter (fun s => !(s.height == height)) := hs
    have h2 := (List.mem_filter.mp this).2
    simpa using h2
  · intro s hs hne
    rw [hred]
    show s ∈ st.preCommit.filter (fun s => !(s.height == height))
    exact List.mem_filter.mpr ⟨hs, by simp [hne]⟩
  · intro m hm t ht hhash
    rw [hred] at hm
    have h2 := (List.mem_filter.mp hm).2
    simp only [Bool.not_eq_true'] at h2
    have hall := List.any_eq_false.mp h2
    have := hall t ht
    simp only [Bool.and_eq_true, beq_iff_eq, not_and] at this
    exact this hhash
  · intro m hm hall
    rw [hred]
    refine List.mem_filter.mpr ⟨hm, ?_⟩
    simp only [Bool.not_eq_true']
    refine List.any_eq_false.mpr ?_
    intro t ht
    simp only [Bool.and_eq_true, beq_iff_eq, not_and]
    exact hall t ht
  · intro f1 f2 herr
    cases f1 <;> cases f2 <;> simp_all [prune]
  · intro h1 h2
    have e1 : deletePreCommitAt st height = st := by
      unfold deletePreCommitAt
      rw [List.filter_eq_self.mpr (fun s hs => by simp [h1 s hs])]
    have e2 : deleteMessagesAt st height = st := by
      unfold deleteMessagesAt
      rw [List.filter_eq_self.mpr ?_]
      intro m _
      simp only [Bool.not_eq_true']
      refine List.any_eq_false.mpr ?_
      intro t ht
      simp only [Bool.and_eq_true, beq_iff_eq, not_and]
      exact fun _ => h2 t ht
    rw [hred, e1, e2]

/-- C4 witness: pruning the empty database at height 3 succeeds and changes
nothing. -/
theorem c4_prune_witness : prune dbEmpty 3 false false = (dbEmpty, none) := by
  have h := c4_prune_spec dbEmpty 3
  exact h.2.2.2.2.2.2.2 (by simp [dbEmpty]) (by simp [dbEmpty])

/-- C9: SaveEpoch always targets the single fixed-key epoch row: afterwards
the row exists; when a row already existed only the block height, block
hash and update time columns are overwritten while the synthetic key and
every other column keep their old values; when no row existed the value is
inserted; no other table is touched. -/
theorem c9_saveEpoch_frame (st : DBState) (e : EpochRow) :
    ((saveEpoch st e).epoch).isSome = true
    ∧ (∀ r, st.epoch = some r →
        ∃ r2, (saveEpoch st e).epoch = some r2
          ∧ r2.blockHeight = e.blockHeight
          ∧ r2.blockHash = e.blockHash
          ∧ r2.updateTime = e.updateTime
          ∧ r2.oneRowId = r.oneRowId
          ∧ r2.rest = r.rest)
    ∧ (st.epoch = none → (saveEpoch st e).epoch = some e)
    ∧ (saveEpoch st e).blocks = st.blocks
    ∧ (saveEpoch st e).buckets = st.buckets
    ∧ (saveEpoch st e).objects = st.objects
    ∧ (saveEpoch st e).permissions = st.permissions
    ∧ (saveEpoch st e).statements = st.statements
    ∧ (saveEpoch st e).preCommit = st.preCommit
    ∧ (saveEpoch st e).transactions = st.transactions
    ∧ (saveEpoch st e).messages = st.messages
    ∧ (saveEpoch st e).pruning = st.pruning := by
  cases hst : st.epoch with
  | none =>
    have hs : saveEpoch st e = { st with epoch := some e } := by
      unfold saveEpoch; rw [hst]
    rw [hs]
    refine ⟨rfl, ?_, fun _ => rfl, rfl, rfl, rfl, rfl, rfl, rfl, rfl, rfl, rfl⟩
    intro r hr
    cases hr
  | some r =>
    have hs : saveEpoch st e
        = { st with epoch := some { r with blockHeight := e.blockHeight, blockHash := e.blockHash, updateTime := e.updateTime } } := by
      unfold saveEpoch; rw [hst]
    rw [hs]
    refine ⟨rfl, ?_, ?_, rfl, rfl, rfl, rfl, rfl, rfl, rfl, rfl, rfl⟩
    · intro r' hr'
      cases hr'
      exact ⟨_, rfl, rfl, rfl, rfl, rfl, rfl⟩
    · intro hn
      cases hn

/-- C9 witness: the stored epoch row is overwritten in exactly the three
tracked columns while key and remaining columns survive. -/
theorem c9_saveEpoch_witness :
    ∃ r2, (saveEpoch dbWithEpoch epochRow1).epoch = some r2
      ∧ r2.blockHeight = epochRow1.blockHeight
      ∧ r2.blockHash = epochRow1.blockHash
      ∧ r2.updateTime = epochRow1.updateTime
      ∧ r2.oneRowId = epochRow0.oneRowId
      ∧ r2.rest = epochRow0.rest := by
  have h := c9_saveEpoch_frame dbWithEpoch epochRow1
  exact h.2.1 epochRow0 rfl

/-- Helper: on a row whose policy id matches, the gorm struct-update issued
by the delete-policy path sets exactly the removed flag and the update
timestamp. -/
theorem updatePermissionRow_deleteArg (t : Int) (pid : Nat) (r : Permission)
    (h : r.policyID = pid) :
    updatePermissionRow (deletePolicyArg t pid) r = markPermissionRemoved t r := by
  unfold updatePermissionRow deletePolicyArg markPermissionRemoved
  subst h
  simp

/-- C3: the fault-free delete-policy handler commits a logical deletion: no
error, the permission table is mapped row-wise so that exactly the rows
with the matching policy id get removed set (and the update timestamp
overwritten) while all their other columns and all other rows survive, the
statement table is mapped so that exactly the matching rows get removed
set, table sizes are unchanged (nothing is physically deleted), matching
rows end up removed, non-matching rows are left stored as they were, and
every other table of the database is untouched. -/
theorem c3_handleDeletePolicy_logical (st : DBState) (t : Int) (ev : EventDeletePolicy) :
    (handleDeletePolicy st t ev false false false).2 = none
    ∧ (handleDeletePolicy st t ev false false false).1.permissions
        = st.permissions.map (fun p => if p.policyID = ev.policyId then markPermissionRemoved t p else p)
    ∧ (handleDeletePolicy st t ev false false false).1.statements
        = st.statements.map (fun s => if s.policyID = ev.policyId then { s with removed := true } else s)
    ∧ (handleDeletePolicy st t ev false false false).1.permissions.length = st.permissions.length
    ∧ (handleDeletePolicy st t ev false false false).1.statements.length = st.statements.length
    ∧ (∀ p ∈ (handleDeletePolicy st t ev false false false).1.permissions,
        p.policyID = ev.policyId → p.removed = true)
    ∧ (∀ p ∈ (handleDeletePolicy st t ev false false false).1.permissions,
        ¬ p.policyID = ev.policyId → p ∈ st.permissions)
    ∧ (∀ s ∈ (handleDeletePolicy st t ev false false false).1.statements,
        s.policyID = ev.policyId → s.removed = true)
    ∧ (∀ s ∈ (handleDeletePolicy st t ev false false false).1.statements,
        ¬ s.policyID = ev.policyId → s ∈ st.statements)
    ∧ (handleDeletePolicy st t ev false false false).1.blocks = st.blocks
    ∧ (handleDeletePolicy st t ev false false false).1.buckets = st.buckets
    ∧ (handleDeletePolicy st t ev false false false).1.objects = st.objects
    ∧ (handleDeletePolicy st t ev false false false).1.preCommit = st.preCommit
    ∧ (handleDeletePolicy st t ev false false false).1.transactions = st.transactions
    ∧ (handleDeletePolicy st t ev false false false).1.messages = st.messages
    ∧ (handleDeletePolicy st t ev false false false).1.pruning = st.pruning
    ∧ (handleDeletePolicy st t ev false false false).1.epoch = st.epoch := by
  have hred : handleDeletePolicy st t ev false false false
      = (removeStatements (updatePermission st (deletePolicyArg t ev.policyId)) ev.policyId, none) := rfl
  have hperm : (handleDeletePolicy st t ev false false false).1.permissions
      = st.permissions.map (fun p => if p.policyID = ev.policyId then markPermissionRemoved t p else p) := by
    rw [hred]
    show st.permissions.map (fun r => if r.policyID == (deletePolicyArg t ev.policyId).policyID then updatePermissionRow (deletePolicyArg t ev.policyId) r else r)
      = st.permissions.map (fun p => if p.policyID = ev.policyId then markPermissionRemoved t p else p)
    apply List.map_congr_left
    intro a _
    by_cases h : a.policyID = ev.policyId
    · rw [if_pos (by simpa [deletePolicyArg] using h), if_pos h]
      exact updatePermissionRow_deleteArg t ev.policyId a h
    · rw [if_neg (by simpa [deletePolicyArg] using h), if_neg h]
  have hstmt : (handleDeletePolicy st t ev false false false).1.statements
      = st.statements.map (fun s => if s.policyID = ev.policyId then { s with removed := true } else s) := by
    rw [hred]
    show st.statements.map (fun s => if s.policyID == ev.policyId then { s with removed := true } else s)
      = st.statements.map (fun s => if s.policyID = ev.policyId then { s with removed := true } else s)
    apply List.map_congr_left
    intro a _
    by_cases h : a.policyID = ev.policyId
    · rw [if_pos (by simpa using h), if_pos h]
    · rw [if_neg (by simpa using h), if_neg h]
  refine ⟨by rw [hred], hperm, hstmt, ?_, ?_, ?_, ?_, ?_, ?_, by rw [hred]; rfl, by rw [hred]; rfl,
    by rw [hred]; rfl, by rw [hred]; rfl, by rw [hred]; rfl, by rw [hred]; rfl, by rw [hred]; rfl,
    by rw [hred]; rfl⟩
  · rw [hperm, List.length_map]
  · rw [hstmt, List.length_map]
  · intro p hp hmatch
    rw [hperm] at hp
    obtain ⟨a, _, rfl⟩ := List.mem_map.mp hp
    by_cases h : a.policyID = ev.policyId
    · rw [if_pos h]
      rfl
    · rw [if_neg h] at hmatch ⊢
      exact absurd hmatch h
  · intro p hp hne
    rw [hperm] at hp
    obtain ⟨a, ha, rfl⟩ := List.mem_map.mp hp
    by_cases h : a.policyID = ev.policyId
    · exfalso
      rw [if_pos h] at hne
      exact hne (by simpa [markPermissionRemoved] using h)
    · rw [if_neg h]
      exact ha
  · intro s hs hmatch
    rw [hstmt] at hs
    obtain ⟨a, _, rfl⟩ := List.mem_map.mp hs
    by_cases h : a.policyID = ev.policyId
    · rw [if_pos h]
    · rw [if_neg h] at hmatch ⊢
      exact absurd hmatch h
  · intro s hs hne
    rw [hstmt] at hs
    obtain ⟨a, ha, rfl⟩ := List.mem_map.mp hs
    by_cases h : a.policyID = ev.policyId
    · exfalso
      rw [if_pos h] at hne
      exact hne (by simpa using h)
    · rw [if_neg h]
      exact ha

/-- C3 witness: deleting policy 42 in a store with its permission row, its
statement row and an unrelated statement row succeeds, and the marked
statement row of policy 42 is removed. -/
theorem c3_handleDeletePolicy_witness :
    (handleDeletePolicy dbWithPolicy 500 ⟨42⟩ false false false).2 = none
    ∧ ({ stmtRow42 with removed := true } : Statements).removed = true := by
  have h := c3_handleDeletePolicy_logical dbWithPolicy 500 ⟨42⟩
  exact ⟨h.1, h.2.2.2.2.2.2.2.1 { stmtRow42 with removed := true } (by decide) (by decide)⟩
